import Mathlib

/-!
Shallow embedding of `core.py` (class `YouTubeMetaGenerator`): caption
normalization (`parse_vtt_content`), Groq response parsing
(`parse_groq_response`), and the retry/backoff loop
(`generate_metadata_with_backoff`).

Strings are modelled as `String`, with the actual work done on `List Char`.
Python `str.strip()` is modelled by dropping `Char.isWhitespace` characters
from both ends; `str.split(sep)`, `str.upper()`, `in`, slicing and `join`
are modelled by structurally recursive list functions so that every
definition evaluates by `decide`/`rfl`.
-/

/-- Python `s.strip()`: drop whitespace from both ends. -/
def pyStrip (l : List Char) : List Char :=
  List.rdropWhile Char.isWhitespace (l.dropWhile Char.isWhitespace)

/-- Python `s.strip(c)` for a one-character strip set `c`. -/
def pyStripChar (c : Char) (l : List Char) : List Char :=
  List.rdropWhile (fun x => x == c) (l.dropWhile (fun x => x == c))

/-- Python `s.split(sep)` for a one-character separator `sep`. -/
def splitOnChar (sep : Char) : List Char → List (List Char)
  | [] => [[]]
  | c :: rest =>
    match splitOnChar sep rest with
    | [] => [[c]]
    | h :: t => if c == sep then [] :: h :: t else (c :: h) :: t

/-- Python `sub in s` (contiguous-substring test). -/
def containsList (sub : List Char) : List Char → Bool
  | [] => sub.isEmpty
  | c :: rest => sub.isPrefixOf (c :: rest) || containsList sub rest

/-- Python `s.upper()` (ASCII). -/
def upperL (l : List Char) : List Char :=
  l.map Char.toUpper

/-- Python `s.lower()` (ASCII). -/
def lowerL (l : List Char) : List Char :=
  l.map Char.toLower

/-- Python `re.match(r'^\d+$', line)`: non-empty and all digits. -/
def isDigitsLine (l : List Char) : Bool :=
  !l.isEmpty && l.all Char.isDigit

/-- Python `' '.join(parts)`. -/
def joinSpace : List (List Char) → List Char
  | [] => []
  | [x] => x
  | x :: y :: rest => x ++ ' ' :: joinSpace (y :: rest)

/-- Scanner state step for `re.sub(r'<[^>]+>', '', line)`: `none` means we
are outside any candidate tag, `some buf` means `buf` (a `'<'` followed by
the non-`'>'` characters read so far) is a pending candidate tag. A
candidate closed by `'>'` is deleted only when it holds at least one
character between the brackets, matching the `+` in the pattern; an
unclosed candidate is emitted literally at the end of the line. -/
def removeTagsAux : Option (List Char) → List Char → List Char
  | none, [] => []
  | some buf, [] => buf
  | none, c :: rest =>
    if c == '<' then removeTagsAux (some ['<']) rest
    else c :: removeTagsAux none rest
  | some buf, c :: rest =>
    if c == '>' then
      if 2 ≤ buf.length then removeTagsAux none rest
      else buf ++ '>' :: removeTagsAux none rest
    else removeTagsAux (some (buf ++ [c])) rest

/-- Python `re.sub(r'<[^>]+>', '', line)`. -/
def removeTags (l : List Char) : List Char :=
  removeTagsAux none l

/-- Scanner state step for `re.sub(r'&[a-zA-Z]+;', '', line)`: `some buf`
is a pending `'&'` followed by the ASCII letters read so far. The
candidate is deleted when closed by `';'` with at least one letter; on any
other character the candidate is emitted literally (a fresh `'&'` starts a
new candidate, matching the regex engine resuming its scan). -/
def removeEntsAux : Option (List Char) → List Char → List Char
  | none, [] => []
  | some buf, [] => buf
  | none, c :: rest =>
    if c == '&' then removeEntsAux (some ['&']) rest
    else c :: removeEntsAux none rest
  | some buf, c :: rest =>
    if c == ';' then
      if 2 ≤ buf.length then removeEntsAux none rest
      else buf ++ ';' :: removeEntsAux none rest
    else if c.isAlpha then removeEntsAux (some (buf ++ [c])) rest
    else if c == '&' then buf ++ removeEntsAux (some ['&']) rest
    else buf ++ c :: removeEntsAux none rest

/-- Python `re.sub(r'&[a-zA-Z]+;', '', line)`. -/
def removeEnts (l : List Char) : List Char :=
  removeEntsAux none l

/-- The skip test of `parse_vtt_content` (core.py lines 150-155): empty
line, `WEBVTT` header, timestamp line, `NOTE` line, or cue index. -/
def skipLine (s : List Char) : Bool :=
  s.isEmpty || "WEBVTT".data.isPrefixOf s || containsList "-->".data s ||
    "NOTE".data.isPrefixOf s || isDigitsLine s

/-- The cleaning step of `parse_vtt_content` (core.py lines 158-159):
remove HTML tags, then HTML entities. -/
def cleanLine (s : List Char) : List Char :=
  removeEnts (removeTags s)

/-- The line loop of `parse_vtt_content` (core.py lines 147-162), with
`acc` playing the role of `transcript_parts`. A cleaned line is appended
only when non-empty and not already present in `transcript_parts`. -/
def vttFold (acc : List (List Char)) : List (List Char) → List (List Char)
  | [] => acc
  | l :: rest =>
    let s := pyStrip l
    if skipLine s then vttFold acc rest
    else
      let c := cleanLine s
      if c ≠ [] ∧ c ∉ acc then vttFold (acc ++ [c]) rest else vttFold acc rest

/-- `transcript_parts` as produced by `parse_vtt_content` for a whole
document. -/
def transcriptParts (content : String) : List (List Char) :=
  vttFold [] (splitOnChar '\n' content.data)

/-- `YouTubeMetaGenerator.parse_vtt_content` (core.py lines 141-164). -/
def parse_vtt_content (content : String) : String :=
  ⟨joinSpace (transcriptParts content)⟩

/-- The `{title, description}` record returned by
`parse_groq_response` (core.py lines 329-332). -/
structure Metadata where
  title : String
  description : String
deriving DecidableEq

/-- The line loop of pattern 1 of `parse_groq_response` (core.py lines
267-281): `t`, `d`, `coll` are `title`, `description_lines`,
`collecting_description`. -/
def pat1Fold (t : List Char) (d : List (List Char)) (coll : Bool) :
    List (List Char) → List Char × List (List Char)
  | [] => (t, d)
  | l :: rest =>
    let s := pyStrip l
    if s.isEmpty then pat1Fold t d coll rest
    else if "TITLE:".data.isPrefixOf (upperL s) then
      pat1Fold (pyStripChar '\'' (pyStripChar '"' (pyStrip (s.drop 6)))) d coll rest
    else if "DESCRIPTION:".data.isPrefixOf (upperL s) then
      let dp := pyStrip (s.drop 12)
      pat1Fold t (if dp.isEmpty then d else d ++ [dp]) true rest
    else if coll then pat1Fold t (d ++ [s]) coll rest
    else pat1Fold t d coll rest

/-- Continuation `\s*([^\n]+)` of the pattern-2 title regex (core.py line
286), applied to the text `u` after the matched `**Title:**` marker,
including the regex engine's backtracking over `\s*`: with greedy `\s*`
the group starts at the first non-whitespace character; if `u` is all
whitespace, backtracking yields the last whitespace character of `u` that
is not a newline, if any. -/
def wsGroupLine (u : List Char) : Option (List Char) :=
  let v := u.dropWhile Char.isWhitespace
  if v.isEmpty then
    match u.reverse.dropWhile (fun c => c == '\n') with
    | [] => none
    | c :: _ => some [c]
  else some (v.takeWhile (fun c => !(c == '\n')))

/-- Continuation `\s*([^*]+)` of the pattern-2 description regex (core.py
line 287), applied to the text after the matched `**Description:**`
marker, with `\s*` backtracking: whitespace characters themselves satisfy
`[^*]`, so when the first non-whitespace character is `'*'` (or the text
is all whitespace) the group degenerates to the last whitespace character
of the run. -/
def wsGroupStar (u : List Char) : Option (List Char) :=
  let w := u.takeWhile Char.isWhitespace
  let v := u.dropWhile Char.isWhitespace
  match v with
  | [] =>
    match w.reverse with
    | [] => none
    | c :: _ => some [c]
  | c :: _ =>
    if c == '*' then
      match w.reverse with
      | [] => none
      | d :: _ => some [d]
    else some (v.takeWhile (fun x => !(x == '*')))

/-- `re.search(r'\*\*Title:\*\*\s*([^\n]+)', full_text, re.IGNORECASE)`
(core.py line 286): leftmost scan for the case-insensitive marker, then
the group continuation; a position where the continuation fails is
skipped and the scan resumes one character later. -/
def searchBoldTitle : List Char → Option (List Char)
  | [] => none
  | c :: rest =>
    if "**TITLE:**".data.isPrefixOf (upperL (c :: rest)) then
      match wsGroupLine ((c :: rest).drop 10) with
      | some g => some g
      | none => searchBoldTitle rest
    else searchBoldTitle rest

/-- `re.search(r'\*\*Description:\*\*\s*([^*]+)', full_text,
re.IGNORECASE)` (core.py line 287), in the same leftmost style. -/
def searchBoldDesc : List Char → Option (List Char)
  | [] => none
  | c :: rest =>
    if "**DESCRIPTION:**".data.isPrefixOf (upperL (c :: rest)) then
      match wsGroupStar ((c :: rest).drop 16) with
      | some g => some g
      | none => searchBoldDesc rest
    else searchBoldDesc rest

/-- Python `'. '.join(parts)` (core.py line 323). -/
def joinDotSpace : List (List Char) → List Char
  | [] => []
  | [x] => x
  | x :: y :: rest => x ++ '.' :: ' ' :: joinDotSpace (y :: rest)

/-- Python `s.split('. ')` (core.py line 318). -/
def splitDotSpace : List Char → List (List Char)
  | [] => [[]]
  | '.' :: ' ' :: rest => [] :: splitDotSpace rest
  | c :: rest =>
    match splitDotSpace rest with
    | [] => [[c]]
    | h :: t => (c :: h) :: t

/-- The sentence-split fallback of `parse_groq_response` (core.py lines
315-325), taking and returning the `(title, description)` pair: when
title or description is still empty, flatten newlines to spaces, split on
`'. '`, promote the first sentence to the title when it fits and no title
exists, otherwise fill an empty description with the whole text. -/
def sentenceFallback (title2 description ft : List Char) : List Char × List Char :=
  if title2.isEmpty ∨ description.isEmpty then
    match splitDotSpace (ft.map fun c => if c == '\n' then ' ' else c) with
    | [] => (title2, description)
    | s0 :: srest =>
      let pt := pyStrip s0
      if pt.length ≤ 53 ∧ title2.isEmpty then
        (pt, pyStrip (joinDotSpace srest))
      else if description.isEmpty then (title2, pyStrip ft)
      else (title2, description)
  else (title2, description)

/-- The title truncation of `parse_groq_response` (core.py lines
311-313): a cleaned title longer than 53 characters becomes its first 50
characters followed by `"..."`. -/
def truncateTitle (title1 : List Char) : List Char :=
  if 53 < title1.length then title1.take 50 ++ "...".data else title1

/-- The common tail of `parse_groq_response`, continued: join the
description lines, clean and truncate the title, run the sentence-split
fallback, and validate. -/
def finalize (title0 : List Char) (descLines : List (List Char)) (ft : List Char) :
    Option Metadata :=
  let description := pyStrip (joinSpace descLines)
  let title1 := pyStrip (pyStripChar '*' (pyStripChar '\'' (pyStripChar '"' title0)))
  let title2 := truncateTitle title1
  let td := sentenceFallback title2 description ft
  if ¬td.1.isEmpty ∧ ¬td.2.isEmpty then some ⟨⟨td.1⟩, ⟨td.2⟩⟩ else none

/-- `YouTubeMetaGenerator.parse_groq_response` (core.py lines 254-338):
the fallback ladder over the stripped response text. -/
def parse_groq_response (content : String) : Option Metadata :=
  let ft := pyStrip content.data
  let lines := splitOnChar '\n' ft
  if containsList "TITLE:".data (upperL ft) then
    let td := pat1Fold [] [] false lines
    finalize td.1 td.2 ft
  else if containsList "**Title:**".data ft || containsList "**TITLE:**".data ft then
    let t := match searchBoldTitle ft with | some g => pyStrip g | none => []
    let d := match searchBoldDesc ft with | some g => [pyStrip g] | none => []
    finalize t d ft
  else
    match lines with
    | [] => finalize [] [] ft
    | l0 :: lrest =>
      let fl := pyStrip l0
      let dls := (lrest.map pyStrip).filter (fun s => !s.isEmpty)
      if "**".data.isPrefixOf fl ∧ "**".data.isSuffixOf fl then
        finalize (pyStrip (pyStripChar '*' fl)) dls ft
      else if fl.length ≤ 53 then
        finalize fl dls ft
      else finalize [] [] ft

/-- Outcome of one attempt of the loop body of
`generate_metadata_with_backoff` (core.py lines 203-250): the service
call succeeded and the response parsed (`ok`), the call succeeded but the
content was empty or unparseable (`parseFail`), or the call raised an
exception with message `msg` (`err`). -/
inductive AttemptOutcome where
  | ok (m : Metadata)
  | parseFail
  | err (msg : String)

/-- The rate-limit classification of core.py line 236:
`"429" in error_msg or "rate limit" in error_msg.lower()`. -/
def isRateLimit (msg : String) : Bool :=
  containsList "429".data msg.data || containsList "rate limit".data (lowerL msg.data)

/-- Observable trace of one run of the retry loop: the returned value,
the number of attempts (service calls) actually made, and the sequence of
`time.sleep` durations in seconds. -/
structure BackoffRun where
  result : Option Metadata
  calls : Nat
  sleeps : List Nat
deriving DecidableEq

/-- The `for attempt in range(max_retries)` loop of
`generate_metadata_with_backoff` (core.py lines 203-252), with `fuel` the
number of iterations left (`max_retries - attempt`); `fuel = 0` is the
loop falling through to `return None` at line 252. On an exception, a
positive remaining `fuel` means `attempt < max_retries - 1`: a
rate-limited error then sleeps `2 ** attempt * 2` seconds (line 238) and
any other error sleeps 1 second (line 248); on the final attempt both
return `None` immediately. A parse failure retries with no sleep. -/
def runBackoff (o : Nat → AttemptOutcome) (attempt : Nat) : Nat → BackoffRun
  | 0 => ⟨none, 0, []⟩
  | fuel + 1 =>
    match o attempt with
    | .ok m => ⟨some m, 1, []⟩
    | .parseFail =>
      let r := runBackoff o (attempt + 1) fuel
      ⟨r.result, r.calls + 1, r.sleeps⟩
    | .err msg =>
      if isRateLimit msg then
        if 0 < fuel then
          let r := runBackoff o (attempt + 1) fuel
          ⟨r.result, r.calls + 1, 2 ^ attempt * 2 :: r.sleeps⟩
        else ⟨none, 1, []⟩
      else
        if 0 < fuel then
          let r := runBackoff o (attempt + 1) fuel
          ⟨r.result, r.calls + 1, 1 :: r.sleeps⟩
        else ⟨none, 1, []⟩

/-- `YouTubeMetaGenerator.generate_metadata_with_backoff` (core.py lines
170-252), abstracted over the attempt outcomes `o` delivered by the Groq
client and response parsing. -/
def generate_metadata_with_backoff (o : Nat → AttemptOutcome) (maxRetries : Nat := 3) :
    BackoffRun :=
  runBackoff o 0 maxRetries

/-- First-occurrence deduplication: append each element to `acc` unless
it already occurs there. This is the effect of the membership guard of
core.py line 161 on the kept cleaned lines. -/
def firstDedup (acc : List (List Char)) : List (List Char) → List (List Char)
  | [] => acc
  | x :: xs => if x ∈ acc then firstDedup acc xs else firstDedup (acc ++ [x]) xs

/-- The stripped source lines of a caption document that survive the skip
filter of `parse_vtt_content`, cleaned, with empty cleaned lines
removed — the stream fed into the duplicate suppression. -/
def keptCleaned (s : String) : List (List Char) :=
  ((((splitOnChar '\n' s.data).map pyStrip).filter fun l => !skipLine l).map cleanLine).filter
    fun c => !c.isEmpty

/-- The net effect of the two title clean-up stages of
`parse_groq_response` on a pattern-1 title `X`: line 274
(`.strip('"').strip("'")`) followed by line 309
(`.strip('"').strip("'").strip('*').strip()`). -/
def cleanedTitle (X : String) : String :=
  ⟨pyStrip (pyStripChar '*' (pyStripChar '\''
    (pyStripChar '"' (pyStripChar '\'' (pyStripChar '"' X.data)))))⟩

/-- An outcome stream where every attempt raises a rate-limited error. -/
def rlOutcomes : Nat → AttemptOutcome :=
  fun _ => .err "Error code: 429 - rate limit reached"

/-- An outcome stream where every call succeeds but never parses. -/
def pfOutcomes : Nat → AttemptOutcome :=
  fun _ => .parseFail

/-! ### Lemmas about the normalization loop -/

theorem vttFold_eq_firstDedup (lines : List (List Char)) :
    ∀ acc, vttFold acc lines =
      firstDedup acc ((((lines.map pyStrip).filter fun l => !skipLine l).map cleanLine).filter
        fun c => !c.isEmpty) := by
  induction lines with
  | nil => intro acc; rfl
  | cons l rest ih =>
    intro acc
    by_cases hs : skipLine (pyStrip l)
    · simpa [vttFold, hs] using ih acc
    · by_cases hc : cleanLine (pyStrip l) = []
      · simpa [vttFold, hs, hc] using ih acc
      · by_cases hm : cleanLine (pyStrip l) ∈ acc
        · simp [vttFold, hs, hc, hm, firstDedup, ih, List.isEmpty_iff]
        · simp [vttFold, hs, hc, hm, firstDedup, ih, List.isEmpty_iff]

theorem vttFold_nodup (lines : List (List Char)) :
    ∀ acc, acc.Nodup → (vttFold acc lines).Nodup := by
  induction lines with
  | nil => intro acc h; exact h
  | cons l rest ih =>
    intro acc h
    by_cases hs : skipLine (pyStrip l)
    · simpa [vttFold, hs] using ih acc h
    · by_cases hg : cleanLine (pyStrip l) ≠ [] ∧ cleanLine (pyStrip l) ∉ acc
      · have h' : (acc ++ [cleanLine (pyStrip l)]).Nodup := by
          rw [← List.concat_eq_append]
          exact List.Nodup.concat hg.2 h
        simpa [vttFold, hs, hg] using ih _ h'
      · simpa [vttFold, hs, hg] using ih acc h

theorem vttFold_mem (lines : List (List Char)) :
    ∀ acc p, p ∈ vttFold acc lines →
      p ∈ acc ∨ ∃ l ∈ lines, skipLine (pyStrip l) = false ∧
        cleanLine (pyStrip l) ≠ [] ∧ cleanLine (pyStrip l) = p := by
  induction lines with
  | nil => intro acc p hp; exact Or.inl hp
  | cons l rest ih =>
    intro acc p hp
    by_cases hs : skipLine (pyStrip l)
    · rcases ih acc p (by simpa [vttFold, hs] using hp) with h | ⟨l', hl', hrest⟩
      · exact Or.inl h
      · exact Or.inr ⟨l', List.mem_cons_of_mem _ hl', hrest⟩
    · by_cases hg : cleanLine (pyStrip l) ≠ [] ∧ cleanLine (pyStrip l) ∉ acc
      · rcases ih _ p (by simpa [vttFold, hs, hg] using hp) with h | ⟨l', hl', hrest⟩
        · rcases List.mem_append.mp h with h' | h'
          · exact Or.inl h'
          · refine Or.inr ⟨l, List.mem_cons_self _ _, by simpa using hs, hg.1, ?_⟩
            simpa using (List.mem_singleton.mp h').symm
        · exact Or.inr ⟨l', List.mem_cons_of_mem _ hl', hrest⟩
      · rcases ih acc p (by simpa [vttFold, hs, hg] using hp) with h | ⟨l', hl', hrest⟩
        · exact Or.inl h
        · exact Or.inr ⟨l', List.mem_cons_of_mem _ hl', hrest⟩

theorem joinSpace_ne_nil (a : List Char) (t : List (List Char)) (ha : a ≠ []) :
    joinSpace (a :: t) ≠ [] := by
  cases t with
  | nil => simpa [joinSpace] using ha
  | cons b bs => simp [joinSpace]

/-! ### Claims about caption normalization -/

/-- C5 (amended): in `parse_vtt_content`, a cleaned non-empty line is
appended to the output sequence if and only if it does not already occur
anywhere among the previously appended cleaned lines: duplicate
suppression is global over the whole document, not restricted to the
most recently appended line. Formally, the retained parts are exactly
the first-occurrence deduplication of the kept cleaned lines. -/
theorem C5_vtt_dedup_is_global (s : String) :
    transcriptParts s = firstDedup [] (keptCleaned s) := by
  simpa [transcriptParts, keptCleaned] using
    vttFold_eq_firstDedup (splitOnChar '\n' s.data) []

/-- C5 counterexample: the claim says a cleaned line identical to an
earlier but not immediately preceding retained line is still appended,
so on `"A\nB\nA"` it predicts output `"A B A"`; the code suppresses the
second `"A"` globally and yields `"A B"`. -/
theorem C5_cex_distant_duplicate_dropped :
    parse_vtt_content "A\nB\nA" = "A B" ∧ parse_vtt_content "A\nB\nA" ≠ "A B A" := by
  decide

/-- C6 (amended): the skip filter of `parse_vtt_content` is applied to
each whitespace-stripped source line before tag/entity removal: every
retained part comes from a non-empty stripped source line that does not
start with `WEBVTT` or `NOTE`, does not contain `-->`, and does not
consist solely of digits. (Tag/entity removal performed afterwards can
re-introduce such substrings into the output, so the property does not
hold of the output string itself.) -/
theorem C6_retained_lines_pass_filter (s : String) (p : List Char)
    (hp : p ∈ transcriptParts s) :
    ∃ l ∈ splitOnChar '\n' s.data,
      "WEBVTT".data.isPrefixOf (pyStrip l) = false ∧
      containsList "-->".data (pyStrip l) = false ∧
      "NOTE".data.isPrefixOf (pyStrip l) = false ∧
      isDigitsLine (pyStrip l) = false ∧
      pyStrip l ≠ [] ∧
      cleanLine (pyStrip l) = p := by
  rcases vttFold_mem _ [] p hp with h | ⟨l, hl, hs, hc, he⟩
  · simp at h
  · have hs' := hs
    simp only [skipLine, Bool.or_eq_false_iff] at hs'
    obtain ⟨⟨⟨⟨h1, h2⟩, h3⟩, h4⟩, h5⟩ := hs'
    exact ⟨l, hl, h2, h3, h4, h5, by simpa [List.isEmpty_iff] using h1, he⟩

theorem C6_retained_lines_pass_filter_witness :
    ∃ l ∈ splitOnChar '\n' ("Hi" : String).data,
      "WEBVTT".data.isPrefixOf (pyStrip l) = false ∧
      containsList "-->".data (pyStrip l) = false ∧
      "NOTE".data.isPrefixOf (pyStrip l) = false ∧
      isDigitsLine (pyStrip l) = false ∧
      pyStrip l ≠ [] ∧
      cleanLine (pyStrip l) = "Hi".data :=
  C6_retained_lines_pass_filter "Hi" "Hi".data (by decide)

/-- C6 counterexample: tag removal can manufacture a `-->` in the output
(`--<b>>` becomes `-->`), a retained line may contain `WEBVTT` mid-line,
and tag removal can leave a digits-only part (`<i>42</i>` becomes `42`),
so the output-level claim is false. -/
theorem C6_cex_output_contains_artifacts :
    parse_vtt_content "--<b>>\nfoo WEBVTT\n<i>42</i>" = "--> foo WEBVTT 42" ∧
    containsList "-->".data (parse_vtt_content "--<b>>\nfoo WEBVTT\n<i>42</i>").data = true ∧
    containsList "WEBVTT".data (parse_vtt_content "--<b>>\nfoo WEBVTT\n<i>42</i>").data =
      true := by
  decide

/-- C7: normalizing the given WEBVTT document yields exactly
`"Hello world Bye"`, with the repeated `Hello world` cue suppressed. -/
theorem C7_webvtt_scenario :
    parse_vtt_content "WEBVTT\n\n00:00:00.000 --> 00:00:02.000\nHello world\n\n00:00:02.000 --> 00:00:04.000\nHello world\n\n00:00:04.000 --> 00:00:06.000\nBye" =
      "Hello world Bye" := by
  decide

/-- C9: `parse_vtt_content` is total (the embedding returns a string for
every input, mirroring the catch-all exception handler that never lets a
fault escape), and it returns the empty string exactly when no line
survives filtering. -/
theorem C9_empty_iff_nothing_survives (s : String) :
    parse_vtt_content s = "" ↔ transcriptParts s = [] := by
  constructor
  · intro h
    cases hp : transcriptParts s with
    | nil => rfl
    | cons a t =>
      exfalso
      have ha : a ≠ [] := by
        rcases vttFold_mem (splitOnChar '\n' s.data) [] a
            (by rw [← transcriptParts, hp]; exact List.mem_cons_self _ _) with h' | ⟨l, _, _, hc, he⟩
        · simp at h'
        · rw [← he]; exact hc
      have hdata : joinSpace (a :: t) = [] := by
        have := congrArg String.data h
        simpa [parse_vtt_content, hp] using this
      exact joinSpace_ne_nil a t ha hdata
  · intro h
    simp [parse_vtt_content, h, joinSpace]

theorem C9_empty_iff_nothing_survives_witness :
    parse_vtt_content "WEBVTT\n12\n00:00:00.000 --> 00:00:02.000\nNOTE x\n  " = "" :=
  (C9_empty_iff_nothing_survives "WEBVTT\n12\n00:00:00.000 --> 00:00:02.000\nNOTE x\n  ").mpr
    (by decide)

/-- C10: the retained parts of `parse_vtt_content` are globally
duplicate-free: each distinct cleaned line appears at most once,
no matter how far apart its repetitions occur in the source. -/
theorem C10_parts_nodup (s : String) : (transcriptParts s).Nodup :=
  vttFold_nodup (splitOnChar '\n' s.data) [] List.nodup_nil

/-! ### Claims about the retry/backoff loop -/

/-- C1: with `maxRetries = 3`, if every attempt raises a
rate-limit-classified error the loop returns `None` after exactly 3
service calls (sleeping 2 then 4 seconds and never making a fourth
call), and if every call succeeds but never yields a parseable response
the loop likewise returns `None` after 3 calls with no exception
surfaced to the caller. -/
theorem C1_retries_exhausted_returns_none (o o' : Nat → AttemptOutcome)
    (h : ∀ i, i < 3 → ∃ msg, o i = .err msg ∧ isRateLimit msg = true)
    (h' : ∀ i, i < 3 → o' i = .parseFail) :
    generate_metadata_with_backoff o 3 = ⟨none, 3, [2, 4]⟩ ∧
    generate_metadata_with_backoff o' 3 = ⟨none, 3, []⟩ := by
  obtain ⟨m0, e0, r0⟩ := h 0 (by omega)
  obtain ⟨m1, e1, r1⟩ := h 1 (by omega)
  obtain ⟨m2, e2, r2⟩ := h 2 (by omega)
  have p0 := h' 0 (by omega)
  have p1 := h' 1 (by omega)
  have p2 := h' 2 (by omega)
  constructor
  · simp [generate_metadata_with_backoff, runBackoff, e0, e1, e2, r0, r1, r2]
  · simp [generate_metadata_with_backoff, runBackoff, p0, p1, p2]

theorem C1_retries_exhausted_returns_none_witness :
    generate_metadata_with_backoff rlOutcomes 3 = ⟨none, 3, [2, 4]⟩ ∧
    generate_metadata_with_backoff pfOutcomes 3 = ⟨none, 3, []⟩ :=
  C1_retries_exhausted_returns_none rlOutcomes pfOutcomes
    (fun _ _ => ⟨"Error code: 429 - rate limit reached", rfl, by decide⟩)
    (fun _ _ => rfl)

/-- C2: when attempt `a` (counted from 0) raises an error, a
rate-limit-classified error sleeps exactly `2 ^ a * 2` seconds before the
next attempt unless it was the final attempt, in which case the loop
returns `None` with no sleep; any other error sleeps exactly 1 second, or
returns `None` with no sleep on the final attempt. (`f + 2` fuel means at
least one attempt remains after the current one; fuel `1` means the
current attempt is the final one.) -/
theorem C2_backoff_wait_classification (o : Nat → AttemptOutcome) (a f : Nat)
    (msg : String) (he : o a = .err msg) :
    (isRateLimit msg = true →
      runBackoff o a (f + 2) =
        ⟨(runBackoff o (a + 1) (f + 1)).result, (runBackoff o (a + 1) (f + 1)).calls + 1,
          2 ^ a * 2 :: (runBackoff o (a + 1) (f + 1)).sleeps⟩ ∧
      runBackoff o a 1 = ⟨none, 1, []⟩) ∧
    (isRateLimit msg = false →
      runBackoff o a (f + 2) =
        ⟨(runBackoff o (a + 1) (f + 1)).result, (runBackoff o (a + 1) (f + 1)).calls + 1,
          1 :: (runBackoff o (a + 1) (f + 1)).sleeps⟩ ∧
      runBackoff o a 1 = ⟨none, 1, []⟩) := by
  refine ⟨fun hr => ⟨?_, ?_⟩, fun hr => ⟨?_, ?_⟩⟩ <;>
    simp [runBackoff, he, hr]

theorem C2_backoff_wait_classification_witness :
    runBackoff rlOutcomes 0 2 =
      ⟨(runBackoff rlOutcomes 1 1).result, (runBackoff rlOutcomes 1 1).calls + 1,
        2 ^ 0 * 2 :: (runBackoff rlOutcomes 1 1).sleeps⟩ ∧
    runBackoff rlOutcomes 0 1 = ⟨none, 1, []⟩ :=
  (C2_backoff_wait_classification rlOutcomes 0 0 "Error code: 429 - rate limit reached"
    rfl).1 (by decide)

/-! ### Lemmas about the substring test -/

theorem isPrefixOf_iff_exists (l₁ l₂ : List Char) :
    l₁.isPrefixOf l₂ = true ↔ ∃ t, l₂ = l₁ ++ t := by
  induction l₁ generalizing l₂ with
  | nil => simp [List.isPrefixOf]
  | cons a as ih =>
    cases l₂ with
    | nil => simp [List.isPrefixOf]
    | cons b bs =>
      simp only [List.isPrefixOf, Bool.and_eq_true, beq_iff_eq, ih]
      constructor
      · rintro ⟨hab, t, ht⟩
        exact ⟨t, by simp [hab, ht]⟩
      · rintro ⟨t, ht⟩
        injection ht with h1 h2
        exact ⟨h1.symm, t, h2⟩

theorem containsList_iff (sub l : List Char) :
    containsList sub l = true ↔ ∃ s t, l = s ++ sub ++ t := by
  induction l with
  | nil =>
    simp only [containsList, List.isEmpty_iff]
    constructor
    · intro h
      exact ⟨[], [], by simp [h]⟩
    · rintro ⟨s, t, ht⟩
      rcases List.append_eq_nil.mp ht.symm with ⟨h1, h2⟩
      exact (List.append_eq_nil.mp h1).2
  | cons c rest ih =>
    simp only [containsList, Bool.or_eq_true, isPrefixOf_iff_exists, ih]
    constructor
    · rintro (⟨t, ht⟩ | ⟨s, t, ht⟩)
      · exact ⟨[], t, by simp [ht]⟩
      · exact ⟨c :: s, t, by simp [ht]⟩
    · rintro ⟨s, t, ht⟩
      cases s with
      | nil => exact Or.inl ⟨t, by simpa using ht⟩
      | cons a as =>
        injection ht with h1 h2
        exact Or.inr ⟨as, t, h2⟩

theorem containsList_upperL (pat l : List Char) (h : containsList pat l = true) :
    containsList (upperL pat) (upperL l) = true := by
  obtain ⟨s, t, ht⟩ := (containsList_iff pat l).mp h
  exact (containsList_iff _ _).mpr ⟨upperL s, upperL t, by simp [ht, upperL]⟩

theorem containsList_of_middle (a b c l : List Char)
    (h : containsList (a ++ b ++ c) l = true) : containsList b l = true := by
  obtain ⟨s, t, ht⟩ := (containsList_iff _ l).mp h
  exact (containsList_iff b l).mpr ⟨s ++ a, c ++ t, by simp [ht]⟩

/-! ### Claims about the response-parsing fallback ladder -/

/-- C8 (amended): the bold-label branch of `parse_groq_response` is
guarded by the presence of the exact-case markers `**Title:**` or
`**TITLE:**`; any text containing either marker also contains `TITLE:`
case-insensitively, so the labeled-line branch (checked first) always
applies instead and the bold-label branch is unreachable. A text with
only a bold `Description:` marker does not enter the bold-label branch
either — it falls through to the first-line heuristic. -/
theorem C8_bold_guard_implies_labeled_guard (content : String)
    (h : (containsList "**Title:**".data (pyStrip content.data) ||
      containsList "**TITLE:**".data (pyStrip content.data)) = true) :
    containsList "TITLE:".data (upperL (pyStrip content.data)) = true := by
  have hsplit : "**TITLE:**".data = "**".data ++ "TITLE:".data ++ "**".data := by decide
  rcases Bool.or_eq_true_iff.mp h with h' | h'
  · have h2 := containsList_upperL _ _ h'
    have hu : upperL "**Title:**".data = "**TITLE:**".data := by decide
    rw [hu, hsplit] at h2
    exact containsList_of_middle _ _ _ _ h2
  · have h2 := containsList_upperL _ _ h'
    have hu : upperL "**TITLE:**".data = "**TITLE:**".data := by decide
    rw [hu, hsplit] at h2
    exact containsList_of_middle _ _ _ _ h2

theorem C8_bold_guard_implies_labeled_guard_witness :
    containsList "TITLE:".data (upperL (pyStrip ("**Title:** x" : String).data)) = true :=
  C8_bold_guard_implies_labeled_guard "**Title:** x" (by decide)

/-- C8 counterexample: on a text containing only a bold `Description:`
marker the claim predicts the bold-label rule applies and the
description is the text following the marker (`"Hello world"`); the code
instead takes the first-line heuristic and returns the whole text as the
description (with the partially-stripped first line as title). -/
theorem C8_cex_bold_description_only :
    parse_groq_response "**Description:** Hello world" =
      some ⟨"Description:** Hello world", "**Description:** Hello world"⟩ ∧
    ("**Description:** Hello world" : String) ≠ "Hello world" := by
  decide

theorem truncateTitle_length_le (t1 : List Char) :
    (truncateTitle t1).length ≤ 53 := by
  unfold truncateTitle
  split
  · simp only [List.length_append, List.length_take, List.length_cons, List.length_nil]
    omega
  · omega

theorem sentenceFallback_title_le (title2 description ft : List Char)
    (h : title2.length ≤ 53) :
    (sentenceFallback title2 description ft).1.length ≤ 53 := by
  unfold sentenceFallback
  split
  · split
    · exact h
    · dsimp only
      split
      · next hg => exact hg.1
      · split
        · exact h
        · exact h
  · exact h

theorem finalize_title_le (t : List Char) (d : List (List Char)) (f : List Char)
    (m : Metadata) (h : finalize t d f = some m) : m.title.length ≤ 53 := by
  simp only [finalize] at h
  split at h
  · injection h with h'
    subst h'
    exact sentenceFallback_title_le _ _ _ (truncateTitle_length_le _)
  · exact absurd h (by simp)

/-- C4: after quote/emphasis stripping, a title longer than 53
characters is replaced by its first 50 characters plus the 3-character
ellipsis marker; every `Metadata` returned by `parse_groq_response` has
a title of at most 53 characters; and a title source text of exactly 54
characters comes back as the 53-character truncation (50 characters plus
`...`). -/
theorem C4_title_truncation_and_bound :
    (∀ s m, parse_groq_response s = some m → m.title.length ≤ 53) ∧
    (∀ t1 : List Char, 53 < t1.length → truncateTitle t1 = t1.take 50 ++ "...".data) ∧
    parse_groq_response
        "TITLE: AAAAAAAAAABBBBBBBBBBCCCCCCCCCCDDDDDDDDDDEEEEEEEEEEFFFF\nDESCRIPTION: hi" =
      some ⟨"AAAAAAAAAABBBBBBBBBBCCCCCCCCCCDDDDDDDDDDEEEEEEEEEE...", "hi"⟩ ∧
    ("AAAAAAAAAABBBBBBBBBBCCCCCCCCCCDDDDDDDDDDEEEEEEEEEEFFFF" : String).length = 54 ∧
    ("AAAAAAAAAABBBBBBBBBBCCCCCCCCCCDDDDDDDDDDEEEEEEEEEE..." : String).length = 53 := by
  refine ⟨?_, ?_, by decide, by decide, by decide⟩
  · intro s m h
    simp only [parse_groq_response] at h
    split at h
    · exact finalize_title_le _ _ _ _ h
    · split at h
      · exact finalize_title_le _ _ _ _ h
      · split at h
        · exact finalize_title_le _ _ _ _ h
        · split at h
          · exact finalize_title_le _ _ _ _ h
          · split at h
            · exact finalize_title_le _ _ _ _ h
            · exact finalize_title_le _ _ _ _ h
  · intro t1 h
    unfold truncateTitle
    rw [if_pos h]

theorem C4_title_truncation_and_bound_witness :
    (Metadata.mk "Hey" "Yo").title.length ≤ 53 :=
  C4_title_truncation_and_bound.1 "TITLE: Hey\nDESCRIPTION: Yo" ⟨"Hey", "Yo"⟩ (by decide)

/-! ### Lemmas for the labeled-line round trip -/

theorem splitOnChar_ne_nil (sep : Char) (l : List Char) : splitOnChar sep l ≠ [] := by
  cases l with
  | nil => simp [splitOnChar]
  | cons c rest =>
    simp only [splitOnChar]
    cases splitOnChar sep rest with
    | nil => simp
    | cons h t =>
      by_cases hc : c = sep <;> simp [hc]

theorem splitOnChar_no_sep (sep : Char) (l : List Char) (h : sep ∉ l) :
    splitOnChar sep l = [l] := by
  induction l with
  | nil => rfl
  | cons c rest ih =>
    have hc : ¬c = sep := fun hc => h (hc ▸ List.mem_cons_self c rest)
    have hrest : sep ∉ rest := fun hm => h (List.mem_cons_of_mem c hm)
    simp [splitOnChar, ih hrest, hc]

theorem splitOnChar_split (sep : Char) (l₁ l₂ : List Char) (h : sep ∉ l₁) :
    splitOnChar sep (l₁ ++ sep :: l₂) = l₁ :: splitOnChar sep l₂ := by
  induction l₁ with
  | nil =>
    simp only [List.nil_append, splitOnChar]
    cases hs : splitOnChar sep l₂ with
    | nil => exact absurd hs (splitOnChar_ne_nil sep l₂)
    | cons a t => simp
  | cons c rest ih =>
    have hc : ¬c = sep := fun hc => h (hc ▸ List.mem_cons_self c rest)
    have hrest : sep ∉ rest := fun hm => h (List.mem_cons_of_mem c hm)
    simp [splitOnChar, ih hrest, hc]

theorem pyStrip_fix_parts (p : Char → Bool) (l : List Char)
    (h : List.rdropWhile p (l.dropWhile p) = l) :
    l.dropWhile p = l ∧ List.rdropWhile p l = l := by
  have hsuf : l.dropWhile p <:+ l := List.dropWhile_suffix p
  have hpre : List.rdropWhile p (l.dropWhile p) <+: l.dropWhile p :=
    List.rdropWhile_prefix p (l.dropWhile p)
  have hlen : (l.dropWhile p).length = l.length := by
    have h1 := List.IsSuffix.length_le hsuf
    have h2 := List.IsPrefix.length_le hpre
    rw [h] at h2
    omega
  have hdw : l.dropWhile p = l := List.IsSuffix.eq_of_length hsuf hlen
  refine ⟨hdw, ?_⟩
  calc List.rdropWhile p l = List.rdropWhile p (l.dropWhile p) := by rw [hdw]
    _ = l := h

theorem dropWhile_fix_cons (p : Char → Bool) (c : Char) (l : List Char)
    (h : p c = false) : (c :: l).dropWhile p = c :: l := by
  simp [List.dropWhile_cons, h]

theorem rdropWhile_fix_append (p : Char → Bool) (l₁ l₂ : List Char)
    (h : List.rdropWhile p l₂ = l₂) (hne : l₂ ≠ []) :
    List.rdropWhile p (l₁ ++ l₂) = l₁ ++ l₂ := by
  have h2 : l₂.reverse.dropWhile p = l₂.reverse := by
    have := congrArg List.reverse h
    simpa [List.rdropWhile] using this
  cases hrev : l₂.reverse with
  | nil => exact absurd (by simpa using hrev) hne
  | cons c t =>
    have hc : p c = false := by
      by_cases pc : p c = true
      · rw [hrev] at h2
        rw [List.dropWhile_cons, pc] at h2
        have hsuf : t.dropWhile p <:+ t := List.dropWhile_suffix p
        have := List.IsSuffix.length_le hsuf
        simp at h2
        rw [h2] at this
        simp at this
      · simpa using pc
    have hl₂ : l₂ = t.reverse ++ [c] := by
      have := congrArg List.reverse hrev
      simpa using this
    unfold List.rdropWhile
    rw [List.reverse_append, hrev, List.cons_append, List.dropWhile_cons, hc]
    simp [hl₂]

theorem pyStrip_fix_cons_append (c : Char) (l₁ l₂ : List Char)
    (hc : c.isWhitespace = false)
    (h2r : List.rdropWhile Char.isWhitespace l₂ = l₂) (hne : l₂ ≠ []) :
    pyStrip (c :: (l₁ ++ l₂)) = c :: (l₁ ++ l₂) := by
  unfold pyStrip
  rw [dropWhile_fix_cons _ _ _ hc]
  have : (c :: (l₁ ++ l₂)) = (c :: l₁) ++ l₂ := by simp
  rw [this, rdropWhile_fix_append _ _ _ h2r hne, ← this]

theorem pyStrip_space_cons (l : List Char) (h : pyStrip l = l) :
    pyStrip (' ' :: l) = l := by
  obtain ⟨h1, h2⟩ := pyStrip_fix_parts Char.isWhitespace l h
  unfold pyStrip
  rw [List.dropWhile_cons]
  simp only [Char.isWhitespace, decide_eq_true_eq]
  rw [if_pos (by decide)]
  rw [h1]
  exact h2

theorem pat1Fold_titled (xd yd : List Char)
    (hx : pyStrip ("TITLE: ".data ++ xd) = "TITLE: ".data ++ xd)
    (hdx : pyStrip (' ' :: xd) = xd)
    (hy : pyStrip ("DESCRIPTION: ".data ++ yd) = "DESCRIPTION: ".data ++ yd)
    (hdy : pyStrip (' ' :: yd) = yd)
    (hey : yd.isEmpty = false) :
    pat1Fold [] [] false ["TITLE: ".data ++ xd, "DESCRIPTION: ".data ++ yd] =
      (pyStripChar '\'' (pyStripChar '"' xd), [yd]) := by
  have c1 : ("TITLE: ".data ++ xd).isEmpty = false := rfl
  have c2 : "TITLE:".data.isPrefixOf (upperL ("TITLE: ".data ++ xd)) = true := rfl
  have c3 : ("TITLE: ".data ++ xd).drop 6 = ' ' :: xd := rfl
  have c4 : ("DESCRIPTION: ".data ++ yd).isEmpty = false := rfl
  have c5 : "TITLE:".data.isPrefixOf (upperL ("DESCRIPTION: ".data ++ yd)) = false := rfl
  have c6 : "DESCRIPTION:".data.isPrefixOf (upperL ("DESCRIPTION: ".data ++ yd)) = true := rfl
  have c7 : ("DESCRIPTION: ".data ++ yd).drop 12 = ' ' :: yd := rfl
  simp only [pat1Fold, hx, hy, c1, c2, c3, c4, c5, c6, c7, hdx, hdy, hey]
  simp [pat1Fold]

theorem finalize_titled (q2 yd ft : List Char) (T : String)
    (hq : pyStrip (pyStripChar '*' (pyStripChar '\'' (pyStripChar '"' q2))) = T.data)
    (hyd : pyStrip yd = yd)
    (htc53 : T.length ≤ 53)
    (htcne : T ≠ "")
    (hydne : yd ≠ []) :
    finalize q2 [yd] ft = some ⟨T, ⟨yd⟩⟩ := by
  have htcd : T.data ≠ [] := fun h => htcne (String.ext h)
  have hlen : T.data.length ≤ 53 := htc53
  have hj : joinSpace [yd] = yd := rfl
  have hetc : T.data.isEmpty = false := by
    cases hd : T.data with
    | nil => exact absurd hd htcd
    | cons a l => rfl
  have heyd : yd.isEmpty = false := by
    cases yd with
    | nil => exact absurd rfl hydne
    | cons a l => rfl
  have ht2 : truncateTitle T.data = T.data := by
    unfold truncateTitle
    rw [if_neg (by omega)]
  have hsf : sentenceFallback T.data yd ft = (T.data, yd) := by
    unfold sentenceFallback
    rw [if_neg (by simp [hetc, heyd])]
  simp only [finalize, hj, hyd, hq, ht2, hsf]
  rw [if_pos (by simp [hetc, heyd])]

theorem containsList_of_prefixHit (sub l : List Char) (h : sub.isPrefixOf l = true) :
    containsList sub l = true := by
  cases l with
  | nil =>
    cases sub with
    | nil => rfl
    | cons a s => simp [List.isPrefixOf] at h
  | cons c rest => simp [containsList, h]

theorem parse_groq_pat1 (c : String)
    (hg : containsList "TITLE:".data (upperL (pyStrip c.data)) = true) :
    parse_groq_response c =
      finalize (pat1Fold [] [] false (splitOnChar '\n' (pyStrip c.data))).1
        (pat1Fold [] [] false (splitOnChar '\n' (pyStrip c.data))).2 (pyStrip c.data) := by
  simp only [parse_groq_response, hg, if_true]

/-- C3 (amended): for a whitespace-trimmed single-line title source `X`
and a whitespace-trimmed non-empty single-line description `Y`, when the
code's title clean-up of `X` (`cleanedTitle X`) is non-empty and at most
53 characters, parsing `"TITLE: X\nDESCRIPTION: Y"` yields exactly the
record `{title := cleanedTitle X, description := Y}`. -/
theorem C3_labeled_line_roundtrip (X Y : String)
    (hXn : '\n' ∉ X.data) (hYn : '\n' ∉ Y.data)
    (hX : pyStrip X.data = X.data) (hY : pyStrip Y.data = Y.data)
    (hYne : Y ≠ "")
    (hT : cleanedTitle X ≠ "")
    (hL : (cleanedTitle X).length ≤ 53) :
    parse_groq_response ("TITLE: " ++ X ++ "\nDESCRIPTION: " ++ Y) =
      some ⟨cleanedTitle X, Y⟩ := by
  obtain ⟨xd⟩ := X
  obtain ⟨yd⟩ := Y
  have hydne : yd ≠ [] := fun h => hYne (by cases h; rfl)
  have hxdne : xd ≠ [] := fun h => hT (by cases h; rfl)
  have hX' : pyStrip xd = xd := hX
  have hY' : pyStrip yd = yd := hY
  obtain ⟨hXl, hXr⟩ := pyStrip_fix_parts Char.isWhitespace xd hX'
  obtain ⟨hYl, hYr⟩ := pyStrip_fix_parts Char.isWhitespace yd hY'
  have hx1 : pyStrip ("TITLE: ".data ++ xd) = "TITLE: ".data ++ xd :=
    pyStrip_fix_cons_append 'T' "ITLE: ".data xd (by decide) hXr hxdne
  have hy1 : pyStrip ("DESCRIPTION: ".data ++ yd) = "DESCRIPTION: ".data ++ yd :=
    pyStrip_fix_cons_append 'D' "ESCRIPTION: ".data yd (by decide) hYr hydne
  have hdx : pyStrip (' ' :: xd) = xd := pyStrip_space_cons xd hX'
  have hdy : pyStrip (' ' :: yd) = yd := pyStrip_space_cons yd hY'
  have hey : yd.isEmpty = false := by
    cases yd with
    | nil => exact absurd rfl hydne
    | cons a l => rfl
  have hdata : ("TITLE: " ++ (⟨xd⟩ : String) ++ "\nDESCRIPTION: " ++ (⟨yd⟩ : String)).data =
      ("TITLE: ".data ++ xd) ++ '\n' :: ("DESCRIPTION: ".data ++ yd) := by
    have hlit : ("\nDESCRIPTION: " : String).data ++ yd =
        '\n' :: ("DESCRIPTION: ".data ++ yd) := rfl
    simp [String.data_append, List.append_assoc, ← hlit]
  have hft : pyStrip (("TITLE: ".data ++ xd) ++ '\n' :: ("DESCRIPTION: ".data ++ yd)) =
      ("TITLE: ".data ++ xd) ++ '\n' :: ("DESCRIPTION: ".data ++ yd) := by
    have h0 := pyStrip_fix_cons_append 'T'
      ("ITLE: ".data ++ xd ++ '\n' :: "DESCRIPTION: ".data) yd (by decide) hYr hydne
    have hsh : ('T' : Char) :: (("ITLE: ".data ++ xd ++ '\n' :: "DESCRIPTION: ".data) ++ yd) =
        ("TITLE: ".data ++ xd) ++ '\n' :: ("DESCRIPTION: ".data ++ yd) := by
      simp only [List.append_assoc, List.cons_append]
    rw [hsh] at h0
    exact h0
  have hny1 : ('\n' : Char) ∉ "TITLE: ".data ++ xd := by
    intro hm
    rcases List.mem_append.mp hm with h | h
    · revert h; decide
    · exact hXn h
  have hny2 : ('\n' : Char) ∉ "DESCRIPTION: ".data ++ yd := by
    intro hm
    rcases List.mem_append.mp hm with h | h
    · revert h; decide
    · exact hYn h
  have hlines :
      splitOnChar '\n' (("TITLE: ".data ++ xd) ++ '\n' :: ("DESCRIPTION: ".data ++ yd)) =
        ["TITLE: ".data ++ xd, "DESCRIPTION: ".data ++ yd] := by
    rw [splitOnChar_split _ _ _ hny1, splitOnChar_no_sep _ _ hny2]
  have hpre : "TITLE:".data.isPrefixOf
      (upperL (("TITLE: ".data ++ xd) ++ '\n' :: ("DESCRIPTION: ".data ++ yd))) = true := rfl
  have hg : containsList "TITLE:".data
      (upperL (("TITLE: ".data ++ xd) ++ '\n' :: ("DESCRIPTION: ".data ++ yd))) = true :=
    containsList_of_prefixHit _ _ hpre
  have hg2 : containsList "TITLE:".data
      (upperL (pyStrip ("TITLE: " ++ (⟨xd⟩ : String) ++ "\nDESCRIPTION: " ++
        (⟨yd⟩ : String)).data)) = true := by
    rw [hdata, hft]
    exact hg
  rw [parse_groq_pat1 _ hg2, hdata, hft, hlines]
  rw [pat1Fold_titled xd yd hx1 hdx hy1 hdy hey]
  dsimp only
  have hq : pyStrip (pyStripChar '*' (pyStripChar '\''
      (pyStripChar '"' (pyStripChar '\'' (pyStripChar '"' xd))))) =
      (cleanedTitle ⟨xd⟩).data := by
    unfold cleanedTitle
    dsimp only
  exact finalize_titled (pyStripChar '\'' (pyStripChar '"' xd)) yd _ (cleanedTitle ⟨xd⟩)
    hq hY' hL hT hydne

theorem C3_labeled_line_roundtrip_witness :
    parse_groq_response
        ("TITLE: " ++ "My Great Video" ++ "\nDESCRIPTION: " ++ "A walkthrough") =
      some ⟨cleanedTitle "My Great Video", "A walkthrough"⟩ :=
  C3_labeled_line_roundtrip "My Great Video" "A walkthrough" (by decide) (by decide)
    (by decide) (by decide) (by decide) (by decide) (by decide)

/-- C3 counterexample: the claim quantifies over every title string `X`
with quote-stripped length at most 53, including `X = ""`; there the code
does not return `{title: "", description: "Hello"}` — the empty title
sends it into the sentence-split fallback, which promotes the whole text
to the title, empties the description, and fails validation, returning
`None`. -/
theorem C3_cex_empty_title :
    parse_groq_response "TITLE: \nDESCRIPTION: Hello" = none ∧
    (none : Option Metadata) ≠ some ⟨"", "Hello"⟩ := by
  decide
